import Mathlib

/-
  Shallow embedding of src/Interpreters/DictionaryReader.h.

  The DictionaryReader plans two kinds of bound dictionary operations
  (dictHas and dictGet), holds a scratch sample block with the constant
  arguments, and readKeys executes the has phase, compacts the rows that
  were found, executes the get phase on the filtered keys and moves the
  result columns into a fresh output block.

  The collaborators that are not part of the source file (the columnar
  Block container, the function resolution and execution framework, the
  external dictionary) are modelled from the spec; every such definition
  carries a doc comment starting with: Modelled from the spec.
-/

namespace ClickHouse

/-- Type identifiers, mirroring TypeIndex: one flat tag per data type,
with a single tag for any Nullable wrapper. -/
inductive TypeId where
  | string
  | uint8
  | uint16
  | uint64
  | nullableTag
  deriving DecidableEq

/-- Data types, mirroring IDataType: scalar types plus a Nullable wrapper. -/
inductive DataType where
  | string
  | uint8
  | uint16
  | uint64
  | nullable (nested : DataType)
  deriving DecidableEq

/-- Mirrors IDataType::getTypeId: a Nullable type reports the nullable tag,
not the tag of its nested type. -/
def DataType.getTypeId : DataType → TypeId
  | .string => TypeId.string
  | .uint8 => TypeId.uint8
  | .uint16 => TypeId.uint16
  | .uint64 => TypeId.uint64
  | .nullable _ => TypeId.nullableTag

/-- Mirrors IDataType::isNullable. -/
def DataType.isNullable : DataType → Bool
  | .nullable _ => true
  | _ => false

/-- Mirrors DataTypeNullable::getNestedType, stripping one outer Nullable
wrapper; on a non nullable type it is the identity (never called there
by the source). -/
def DataType.getNestedType : DataType → DataType
  | .nullable t => t
  | t => t

/-- Scalar values held by columns. -/
inductive Value where
  | vUInt8 (n : Nat)
  | vUInt16 (n : Nat)
  | vUInt64 (n : Nat)
  | vString (s : String)
  deriving DecidableEq

/-- Modelled from the spec: the columnar container abstraction (IColumn).
Concrete vector columns for the key and mask types, a constant column for
the constant arguments, and a generic materialized column for dictGet
results. -/
inductive Column where
  | vecUInt8 (data : List Nat)
  | vecUInt64 (data : List Nat)
  | vals (data : List Value)
  | constCol (size : Nat) (val : Value)
  deriving DecidableEq

/-- Modelled from the spec: IColumn::size. -/
def Column.size : Column → Nat
  | .vecUInt8 d => d.length
  | .vecUInt64 d => d.length
  | .vals d => d.length
  | .constCol n _ => n

/-- Resize a list to exactly n entries, truncating or padding with a
default element, as std vector resize and IColumn::cloneResized do. -/
def resizeList {α : Type} (l : List α) (n : Nat) (pad : α) : List α :=
  l.take n ++ List.replicate (n - l.length) pad

/-- Modelled from the spec: IColumn::cloneResized, producing a copy with
exactly the requested number of rows, padding with default values. -/
def Column.cloneResized : Column → Nat → Column
  | .vecUInt8 d, n => .vecUInt8 (resizeList d n 0)
  | .vecUInt64 d, n => .vecUInt64 (resizeList d n 0)
  | .vals d, n => .vals (resizeList d n (Value.vUInt64 0))
  | .constCol _ v, n => .constCol n v

/-- Modelled from the spec: IColumn::cloneEmpty, a column of the same kind
with zero rows. -/
def Column.cloneEmpty : Column → Column
  | .vecUInt8 _ => .vecUInt8 []
  | .vecUInt64 _ => .vecUInt64 []
  | .vals _ => .vals []
  | .constCol _ v => .constCol 0 v

/-- Keep the entries whose filter byte is nonzero, preserving order. -/
def filterData {α : Type} (d : List α) (filt : List Nat) : List α :=
  (d.zip filt).filterMap (fun p => if p.2 ≠ 0 then some p.1 else none)

/-- Number of nonzero bytes in a filter mask. -/
def countNonzero (filt : List Nat) : Nat :=
  (filt.filter (fun f => f != 0)).length

/-- Call time errors surfaced by the container and execution collaborators. -/
inductive RunErr where
  | positionOutOfBound (pos : Nat)
  | badNumberCast
  | nullColumn
  | sizesMismatch
  | illegalColumn
  deriving DecidableEq

/-- Modelled from the spec: IColumn::filter with standard boolean mask
semantics; the mask must have as many entries as the column has rows. -/
def Column.filter (c : Column) (filt : List Nat) : Except RunErr Column :=
  if filt.length ≠ c.size then .error .sizesMismatch
  else
    match c with
    | .vecUInt8 d => .ok (.vecUInt8 (filterData d filt))
    | .vecUInt64 d => .ok (.vecUInt64 (filterData d filt))
    | .vals d => .ok (.vals (filterData d filt))
    | .constCol _ v => .ok (.constCol (countNonzero filt) v)

/-- A column slot of a block: optional column data plus type and name,
mirroring ColumnWithTypeAndName (the column pointer may be null). -/
structure ColumnWithTypeAndName where
  column : Option Column
  type : DataType
  name : String
  deriving DecidableEq

/-- A block is an ordered sequence of named, typed column slots. -/
abbrev Block := List ColumnWithTypeAndName

/-- Modelled from the spec: Block::getByPosition, bounds checked positional
access; a position past the last slot is an error. -/
def Block.getByPosition (b : Block) (position : Nat) : Except RunErr ColumnWithTypeAndName :=
  match b.get? position with
  | some c => .ok c
  | none => .error (.positionOutOfBound position)

/-- Modelled from the spec: assignment through the reference returned by
Block::getByPosition, replacing only the column data of the slot; the
position must exist in the block. -/
def Block.setColumnAt (b : Block) (position : Nat) (c : Option Column) : Except RunErr Block :=
  match b.get? position with
  | some old => .ok (b.set position { old with column := c })
  | none => .error (.positionOutOfBound position)

/-- Modelled from the spec: Block::cloneEmpty, keeping names and types and
emptying every column. -/
def Block.cloneEmpty (b : Block) : Block :=
  b.map (fun c => { c with column := c.column.map Column.cloneEmpty })

/-- Modelled from the spec: the opaque executable produced by the
resolution framework; invoked as run block argPositions resultPos rows,
it writes its output into the designated slot of the block. -/
structure FunctionBase where
  returnType : DataType
  run : Block → List Nat → Nat → Nat → Except RunErr Block

/-- Modelled from the spec: a function overload resolver; build turns the
sample arguments into a prepared function with a known return type. -/
abbrev Resolver := List ColumnWithTypeAndName → FunctionBase

/-- Construction time errors of the DictionaryReader constructor. -/
inductive ConstructErr where
  | columnCountMismatch
  | typeMismatch (column_name : String)
  deriving DecidableEq

/-- A bound operation: the prepared function, the positions of its
arguments inside the shared block, and the position its result is written
to, mirroring DictionaryReader::FunctionWrapper. -/
structure FunctionWrapper where
  function : FunctionBase
  arg_positions : List Nat
  result_pos : Nat

/-- Mirrors the FunctionWrapper constructor: build the function from the
resolver, record result_pos as the current column count of the block, and
check the resolved return type against the expected type id. The source
also creates a local result ColumnWithTypeAndName (named by prefixing the
column name, typed with the return type) but never inserts it into the
block, so the block is returned unchanged. -/
def FunctionWrapper.construct (resolver : Resolver) (arguments : List ColumnWithTypeAndName)
    (block : Block) (arg_positions_ : List Nat) (column_name : String)
    (expected_type : TypeId) : Except ConstructErr (FunctionWrapper × Block) :=
  let prepare_function := resolver arguments
  let result_pos := block.length
  if prepare_function.returnType.getTypeId ≠ expected_type then
    .error (.typeMismatch column_name)
  else
    .ok ({ function := prepare_function, arg_positions := arg_positions_,
           result_pos := result_pos }, block)

/-- Mirrors FunctionWrapper::execute: invoke the prepared function on the
block at the stored argument and result positions. -/
def FunctionWrapper.execute (w : FunctionWrapper) (block : Block) (rows : Nat) :
    Except RunErr Block :=
  w.function.run block w.arg_positions w.result_pos rows

/-- Mirrors DictionaryReader::makeResultBlock: one empty slot per requested
result, stripping one outer Nullable wrapper from the declared type. -/
def makeResultBlock (names : List (String × DataType)) : Block :=
  names.map (fun nm =>
    { column := none,
      type := if (DataType.isNullable nm.2) then DataType.getNestedType nm.2 else nm.2,
      name := nm.1 })

/-- The constant dictionary name argument column built by the constructor. -/
def dictNameColumn (dictionary_name : String) : ColumnWithTypeAndName :=
  { column := some (Column.constCol 1 (Value.vString dictionary_name)),
    type := DataType.string, name := "dict" }

/-- The key argument placeholder built by the constructor (no data yet). -/
def keyArgColumn : ColumnWithTypeAndName :=
  { column := none, type := DataType.uint64, name := "key" }

/-- The attribute name argument placeholder built by the constructor
(no data attached). -/
def columnNameArg : ColumnWithTypeAndName :=
  { column := none, type := DataType.string, name := "column" }

/-- Sample arguments for dictHas: dictionary name and key. -/
def argumentsHas (dictionary_name : String) : List ColumnWithTypeAndName :=
  [dictNameColumn dictionary_name, keyArgColumn]

/-- Sample arguments for dictGet: dictionary name, attribute name and key. -/
def argumentsGet (dictionary_name : String) : List ColumnWithTypeAndName :=
  [dictNameColumn dictionary_name, columnNameArg, keyArgColumn]

/-- A constant source column name slot inserted into the sample block. -/
def srcNameColumn (s : String) : ColumnWithTypeAndName :=
  { column := some (Column.constCol 1 (Value.vString s)),
    type := DataType.string, name := "col_" ++ s }

/-- The sample block as the constructor assembles it: the dictionary name,
one constant slot per source column name, then the key placeholder. -/
def initialSampleBlock (dictionary_name : String) (src_column_names : List String) : Block :=
  dictNameColumn dictionary_name :: (src_column_names.map srcNameColumn ++ [keyArgColumn])

/-- Mirrors key_position = key_size + result_header.columns(). -/
def keyPositionOf (key_size : Nat) (result_columns : List (String × DataType)) : Nat :=
  key_size + (makeResultBlock result_columns).length

/-- The lookup plan, mirroring the private state of DictionaryReader. -/
structure DictionaryReader where
  result_header : Block
  sample_block : Block
  key_position : Nat
  function_has : FunctionWrapper
  functions_get : List FunctionWrapper

/-- Mirrors the loop of the constructor over the result header: for column
i, the attribute name argument sits at position key_size + i and the bound
get operation is built with argument positions zero, that position, and
the key position; the wrappers are built left to right, threading the
sample block. -/
def mkGets (dict_get : Resolver) (arguments_get : List ColumnWithTypeAndName)
    (key_size key_position : Nat) :
    List ColumnWithTypeAndName → Nat → Block →
    Except ConstructErr (List FunctionWrapper × Block)
  | [], _, block => .ok ([], block)
  | column :: rest, i, block =>
    match FunctionWrapper.construct dict_get arguments_get block
            [0, key_size + i, key_position] column.name column.type.getTypeId with
    | .error e => .error e
    | .ok (w, block2) =>
      match mkGets dict_get arguments_get key_size key_position rest (i + 1) block2 with
      | .error e => .error e
      | .ok (ws, block3) => .ok (w :: ws, block3)

/-- Mirrors the DictionaryReader constructor: reject mismatched column
counts first, then bind dictHas (expected type uint8) and one dictGet per
result column (expected type: the type id of the nullable stripped header
column), against the sample block assembled from the constant arguments. -/
def DictionaryReader.construct (dict_has dict_get : Resolver) (dictionary_name : String)
    (src_column_names : List String) (result_columns : List (String × DataType))
    (key_size : Nat) : Except ConstructErr DictionaryReader :=
  if src_column_names.length ≠ result_columns.length then
    .error .columnCountMismatch
  else
    match FunctionWrapper.construct dict_has (argumentsHas dictionary_name)
            (initialSampleBlock dictionary_name src_column_names)
            [0, keyPositionOf key_size result_columns] "has" TypeId.uint8 with
    | .error e => .error e
    | .ok (f_has, sample1) =>
      match mkGets dict_get (argumentsGet dictionary_name) key_size
              (keyPositionOf key_size result_columns)
              (makeResultBlock result_columns) 0 sample1 with
      | .error e => .error e
      | .ok (f_gets, sample2) =>
        .ok { result_header := makeResultBlock result_columns,
              sample_block := sample2,
              key_position := keyPositionOf key_size result_columns,
              function_has := f_has, functions_get := f_gets }

/-- Mirrors the extraction of the dictHas result: move the column out,
mutate it, and cast it to a vector of uint8, whose data becomes the found
mask; any other column shape fails the cast. -/
def extractUInt8Data : Option Column → Except RunErr (List Nat)
  | some (.vecUInt8 d) => .ok d
  | some _ => .error .badNumberCast
  | none => .error .nullColumn

/-- Mirrors the position map loop: a single left to right scan with a
running dense counter; a found row receives the counter and increments it,
a not found row keeps the default value zero. -/
def buildPositionsFrom : List Nat → Nat → List Nat
  | [], _ => []
  | f :: fs, pos =>
    if f ≠ 0 then pos :: buildPositionsFrom fs (pos + 1)
    else 0 :: buildPositionsFrom fs pos

/-- Mirrors positions.clear(); positions.resize(size, 0) followed by the
scan over the first size entries of the found mask (the mask holds exactly
size entries whenever the has phase ran on size rows). -/
def buildPositions (found : List Nat) (size : Nat) : List Nat :=
  buildPositionsFrom (resizeList found size 0) 0

/-- Mirrors the get phase loop: execute every bound get operation in
result attribute order on the working block. -/
def execGets : List FunctionWrapper → Block → Nat → Except RunErr Block
  | [], block, _ => .ok block
  | f :: fs, block, rows =>
    match FunctionWrapper.execute f block rows with
    | .error e => .error e
    | .ok block2 => execGets fs block2 rows

/-- Mirrors the result materializer loop: for output slot i, read the
working block slot at first_get_position + i, move its column into the
output slot and null the source slot. -/
def moveColumns (first_get_position : Nat) :
    Block → List ColumnWithTypeAndName → Nat →
    Except RunErr (List ColumnWithTypeAndName × Block)
  | working, [], _ => .ok ([], working)
  | working, dst :: rest, i =>
    match Block.getByPosition working (first_get_position + i) with
    | .error e => .error e
    | .ok src =>
      match Block.setColumnAt working (first_get_position + i) none with
      | .error e => .error e
      | .ok working2 =>
        match moveColumns first_get_position working2 rest (i + 1) with
        | .error e => .error e
        | .ok (ds, working3) => .ok ({ dst with column := src.column } :: ds, working3)

/-- The three correlated outputs of one readKeys call. -/
structure ReadResult where
  out_block : Block
  found : List Nat
  positions : List Nat
  deriving DecidableEq

/-- Mirrors DictionaryReader::readKeys: copy the sample block into a
working block, install a resized copy of the keys at the key position, run
the has operation, extract the found mask and null the has slot, build the
position map by the running counter scan, filter the key column by the
mask, run every get operation on the filtered row count, and move the get
result columns into a clone of the result header. -/
def DictionaryReader.readKeys (r : DictionaryReader) (keys : Column) (size : Nat) :
    Except RunErr ReadResult := do
  let working_block := r.sample_block
  let has_position := r.key_position + 1
  let working_block ← Block.setColumnAt working_block r.key_position
    (some (Column.cloneResized keys size))
  let working_block ← FunctionWrapper.execute r.function_has working_block size
  let has_column ← Block.getByPosition working_block has_position
  let found ← extractUInt8Data has_column.column
  let working_block ← Block.setColumnAt working_block has_position none
  let positions := buildPositions found size
  let key_column ← Block.getByPosition working_block r.key_position
  let key_col ← match key_column.column with
    | some c => Except.ok c
    | none => Except.error RunErr.nullColumn
  let filtered ← Column.filter key_col found
  let working_block ← Block.setColumnAt working_block r.key_position (some filtered)
  let rows := Column.size filtered
  let working_block ← execGets r.functions_get working_block rows
  let out_block := Block.cloneEmpty r.result_header
  let first_get_position := has_position + 1
  let (out_columns, _working_final) ← moveColumns first_get_position working_block out_block 0
  Except.ok { out_block := out_columns, found := found, positions := positions }

/-- The readKeys call seen together with the machine state it leaves
behind: the plan is a const object and the caller keys are passed by const
reference, so the call hands back the plan and the keys next to the
computed result. -/
def DictionaryReader.readKeysCall (r : DictionaryReader) (keys : Column) (size : Nat) :
    Except RunErr ReadResult × DictionaryReader × Column :=
  (DictionaryReader.readKeys r keys size,
   { result_header := r.result_header, sample_block := r.sample_block,
     key_position := r.key_position, function_has := r.function_has,
     functions_get := r.functions_get },
   keys)

/-- Modelled from the spec: the external dictionary collaborator, exposed
through the two pure operations has and get. -/
structure Dict where
  hasKey : Nat → Bool
  getAttr : String → Nat → Value

/-- Modelled from the spec: read the uint64 entries of a key column. -/
def Column.asUInt64Data : Column → Option (List Nat)
  | .vecUInt64 d => some d
  | .constCol n (Value.vUInt64 k) => some (List.replicate n k)
  | _ => none

/-- Modelled from the spec: the prepared dictHas executable; it reads the
key column at its second argument position, computes the uint8 existence
mask for the requested number of rows and writes it to the designated
result slot of the block. -/
def hasRun (d : Dict) (block : Block) (argPositions : List Nat) (resultPos rows : Nat) :
    Except RunErr Block := do
  let keyCol ← Block.getByPosition block (argPositions.getD 1 0)
  match keyCol.column with
  | none => Except.error RunErr.illegalColumn
  | some kc =>
    match Column.asUInt64Data kc with
    | none => Except.error RunErr.illegalColumn
    | some keys =>
      Block.setColumnAt block resultPos
        (some (Column.vecUInt8 ((keys.take rows).map (fun k => if d.hasKey k then 1 else 0))))

/-- Modelled from the spec: the prepared dictGet executable; it reads the
constant attribute name at its second argument position and the key column
at its third, computes the attribute values for the requested number of
rows and writes them to the designated result slot of the block. -/
def getRun (d : Dict) (block : Block) (argPositions : List Nat) (resultPos rows : Nat) :
    Except RunErr Block := do
  let nameCol ← Block.getByPosition block (argPositions.getD 1 0)
  let keyCol ← Block.getByPosition block (argPositions.getD 2 0)
  match nameCol.column, keyCol.column with
  | some (.constCol _ (Value.vString attr)), some kc =>
    match Column.asUInt64Data kc with
    | some keys =>
      Block.setColumnAt block resultPos
        (some (Column.vals ((keys.take rows).map (d.getAttr attr))))
    | none => Except.error RunErr.illegalColumn
  | _, _ => Except.error RunErr.illegalColumn

/-- Demo dictionary from the end to end scenario of the spec: keys 10 and
12 are present. -/
def demoDict : Dict :=
  { hasKey := fun k => k == 10 || k == 12,
    getAttr := fun _ k =>
      if k == 10 then Value.vString "Alice"
      else if k == 12 then Value.vString "Bob"
      else Value.vString "" }

/-- Modelled from the spec: a dictHas resolver over the demo dictionary,
returning type uint8. -/
def demoHasResolver : Resolver := fun _ =>
  { returnType := DataType.uint8, run := hasRun demoDict }

/-- Modelled from the spec: a dictGet resolver over the demo dictionary,
resolving to the string type (the source passes the same valueless sample
arguments for every attribute, so one resolved return type applies to all
of them). -/
def demoGetResolver : Resolver := fun _ =>
  { returnType := DataType.string, run := getRun demoDict }

/-- Demo construction inputs: a single string attribute. -/
def demoDictName : String := "dict"

/-- Source column names of the one attribute demo plan. -/
def demoSrcNames1 : List String := ["name"]

/-- Result specification of the one attribute demo plan. -/
def demoSpecs1 : List (String × DataType) := [("name", DataType.string)]

/-- Source column names of the two attribute demo plan. -/
def demoSrcNames2 : List String := ["name", "second"]

/-- Result specification of the two attribute demo plan. -/
def demoSpecs2 : List (String × DataType) :=
  [("name", DataType.string), ("second", DataType.string)]

/-- A prepared function that returns its block unchanged, used to build
plan values directly for the frame theorems. -/
def idFunctionBase : FunctionBase :=
  { returnType := DataType.uint8, run := fun b _ _ _ => Except.ok b }

/-- A bound operation around idFunctionBase. -/
def trivialWrapper : FunctionWrapper :=
  { function := idFunctionBase, arg_positions := [], result_pos := 0 }

/-- A small hand built plan value used to instantiate frame theorems. -/
def trivialReader : DictionaryReader :=
  { result_header := [], sample_block := [keyArgColumn], key_position := 0,
    function_has := trivialWrapper, functions_get := [] }

end ClickHouse

namespace ClickHouse

theorem functionWrapper_construct_ok_eq (resolver : Resolver)
    (arguments : List ColumnWithTypeAndName) (block : Block) (aps : List Nat)
    (column_name : String) (expected : TypeId)
    (h : (resolver arguments).returnType.getTypeId = expected) :
    FunctionWrapper.construct resolver arguments block aps column_name expected =
      .ok ({ function := resolver arguments, arg_positions := aps,
             result_pos := block.length }, block) := by
  simp only [FunctionWrapper.construct]
  rw [if_neg (by simp [h])]

theorem functionWrapper_construct_error_eq (resolver : Resolver)
    (arguments : List ColumnWithTypeAndName) (block : Block) (aps : List Nat)
    (column_name : String) (expected : TypeId)
    (h : (resolver arguments).returnType.getTypeId ≠ expected) :
    FunctionWrapper.construct resolver arguments block aps column_name expected =
      .error (.typeMismatch column_name) := by
  simp only [FunctionWrapper.construct]
  rw [if_pos h]

theorem functionWrapper_construct_error_shape (resolver : Resolver)
    (arguments : List ColumnWithTypeAndName) (block : Block) (aps : List Nat)
    (column_name : String) (expected : TypeId) (e : ConstructErr)
    (h : FunctionWrapper.construct resolver arguments block aps column_name expected
          = .error e) :
    e = .typeMismatch column_name ∧
      (resolver arguments).returnType.getTypeId ≠ expected := by
  by_cases ht : (resolver arguments).returnType.getTypeId = expected
  · rw [functionWrapper_construct_ok_eq resolver arguments block aps column_name expected ht] at h
    cases h
  · rw [functionWrapper_construct_error_eq resolver arguments block aps column_name expected ht] at h
    cases h
    exact ⟨rfl, ht⟩

theorem functionWrapper_construct_ok_shape (resolver : Resolver)
    (arguments : List ColumnWithTypeAndName) (block : Block) (aps : List Nat)
    (column_name : String) (expected : TypeId) (out : FunctionWrapper × Block)
    (h : FunctionWrapper.construct resolver arguments block aps column_name expected
          = .ok out) :
    (resolver arguments).returnType.getTypeId = expected := by
  by_cases ht : (resolver arguments).returnType.getTypeId = expected
  · exact ht
  · rw [functionWrapper_construct_error_eq resolver arguments block aps column_name expected ht] at h
    cases h

theorem mkGets_error_shape (rg : Resolver) (args : List ColumnWithTypeAndName)
    (ks kp : Nat) :
    ∀ (cols : List ColumnWithTypeAndName) (i : Nat) (b : Block) (e : ConstructErr),
      mkGets rg args ks kp cols i b = .error e →
      ∃ col ∈ cols, e = .typeMismatch col.name ∧
        (rg args).returnType.getTypeId ≠ col.type.getTypeId := by
  intro cols
  induction cols with
  | nil =>
    intro i b e h
    simp [mkGets] at h
  | cons col rest ih =>
    intro i b e h
    unfold mkGets at h
    cases heq : FunctionWrapper.construct rg args b [0, ks + i, kp] col.name
        col.type.getTypeId with
    | error e1 =>
      simp only [heq] at h
      injection h with h1
      obtain ⟨he, hne⟩ := functionWrapper_construct_error_shape rg args b
        [0, ks + i, kp] col.name col.type.getTypeId e1 heq
      exact ⟨col, by simp, by rw [← h1, he], hne⟩
    | ok pr =>
      obtain ⟨w, b2⟩ := pr
      simp only [heq] at h
      cases heq2 : mkGets rg args ks kp rest (i + 1) b2 with
      | error e2 =>
        simp only [heq2] at h
        injection h with h2
        obtain ⟨c, hc, he, hne⟩ := ih (i + 1) b2 e2 heq2
        exact ⟨c, by simp [hc], by rw [← h2, he], hne⟩
      | ok out2 =>
        obtain ⟨ws, b3⟩ := out2
        simp only [heq2] at h
        exact Except.noConfusion h

theorem mkGets_ok_iff (rg : Resolver) (args : List ColumnWithTypeAndName)
    (ks kp : Nat) :
    ∀ (cols : List ColumnWithTypeAndName) (i : Nat) (b : Block),
      (∃ out, mkGets rg args ks kp cols i b = .ok out) ↔
      ∀ col ∈ cols, (rg args).returnType.getTypeId = col.type.getTypeId := by
  intro cols
  induction cols with
  | nil =>
    intro i b
    constructor
    · intro _ c hc
      simp at hc
    · intro _
      exact ⟨([], b), rfl⟩
  | cons col rest ih =>
    intro i b
    constructor
    · rintro ⟨out, hout⟩ c hc
      unfold mkGets at hout
      cases heq : FunctionWrapper.construct rg args b [0, ks + i, kp] col.name
          col.type.getTypeId with
      | error e1 =>
        simp only [heq] at hout
        exact Except.noConfusion hout
      | ok pr =>
        obtain ⟨w, b2⟩ := pr
        simp only [heq] at hout
        have hcol := functionWrapper_construct_ok_shape rg args b
          [0, ks + i, kp] col.name col.type.getTypeId (w, b2) heq
        rcases List.mem_cons.mp hc with hcc | hcr
        · rw [hcc]; exact hcol
        · cases heq2 : mkGets rg args ks kp rest (i + 1) b2 with
          | error e2 =>
            simp only [heq2] at hout
            exact Except.noConfusion hout
          | ok out2 =>
            exact (ih (i + 1) b2).mp ⟨out2, heq2⟩ c hcr
    · intro hall
      have hcol : (rg args).returnType.getTypeId = col.type.getTypeId :=
        hall col (by simp)
      have hrest : ∀ c ∈ rest, (rg args).returnType.getTypeId = c.type.getTypeId :=
        fun c hc => hall c (by simp [hc])
      obtain ⟨out2, hout2⟩ := (ih (i + 1) b).mpr hrest
      obtain ⟨ws, b3⟩ := out2
      refine ⟨({ function := rg args, arg_positions := [0, ks + i, kp],
                  result_pos := b.length } :: ws, b3), ?_⟩
      unfold mkGets
      rw [functionWrapper_construct_ok_eq rg args b [0, ks + i, kp] col.name
            col.type.getTypeId hcol]
      simp only
      rw [hout2]

end ClickHouse

namespace ClickHouse

/-- Claim C5: construction fails with the column count mismatch error if
and only if the number of source column names differs from the number of
result specifications; on that failure no plan value is produced (the
error result carries no DictionaryReader). -/
theorem claim5_column_count_check (rh rg : Resolver) (dn : String)
    (names : List String) (specs : List (String × DataType)) (ks : Nat) :
    DictionaryReader.construct rh rg dn names specs ks
        = .error .columnCountMismatch ↔
      names.length ≠ specs.length := by
  constructor
  · intro h
    by_contra hlen
    unfold DictionaryReader.construct at h
    rw [if_neg (show ¬ names.length ≠ specs.length by simp [hlen])] at h
    cases heq : FunctionWrapper.construct rh (argumentsHas dn)
        (initialSampleBlock dn names) [0, keyPositionOf ks specs] "has"
        TypeId.uint8 with
    | error e1 =>
      simp only [heq] at h
      injection h with h1
      obtain ⟨he, _⟩ := functionWrapper_construct_error_shape rh (argumentsHas dn)
        (initialSampleBlock dn names) [0, keyPositionOf ks specs] "has"
        TypeId.uint8 e1 heq
      rw [he] at h1
      cases h1
    | ok pr =>
      obtain ⟨w, b2⟩ := pr
      simp only [heq] at h
      cases heq2 : mkGets rg (argumentsGet dn) ks (keyPositionOf ks specs)
          (makeResultBlock specs) 0 b2 with
      | error e2 =>
        simp only [heq2] at h
        injection h with h2
        obtain ⟨c, _, he, _⟩ := mkGets_error_shape rg (argumentsGet dn) ks
          (keyPositionOf ks specs) (makeResultBlock specs) 0 b2 e2 heq2
        rw [he] at h2
        cases h2
      | ok out2 =>
        obtain ⟨ws, b3⟩ := out2
        simp only [heq2] at h
        exact Except.noConfusion h
  · intro h
    unfold DictionaryReader.construct
    rw [if_pos h]

/-- Claim C6: with matching column counts, construction succeeds exactly
when the resolved has operation has type id uint8 and the resolved get
operation type id equals the type id of every result header column (the
declared type with one outer nullable wrapper stripped); moreover every
type mismatch failure carries the name of the offending attribute (the
string used for the has binding, or the name of a mismatching result
column). -/
theorem claim6_type_check (rh rg : Resolver) (dn : String)
    (names : List String) (specs : List (String × DataType)) (ks : Nat)
    (hlen : names.length = specs.length) :
    (((rh (argumentsHas dn)).returnType.getTypeId = TypeId.uint8 ∧
        ∀ col ∈ makeResultBlock specs,
          (rg (argumentsGet dn)).returnType.getTypeId = col.type.getTypeId) ↔
      ∃ r, DictionaryReader.construct rh rg dn names specs ks = .ok r) ∧
    (∀ nm, DictionaryReader.construct rh rg dn names specs ks
          = .error (.typeMismatch nm) →
        (nm = "has" ∧ (rh (argumentsHas dn)).returnType.getTypeId ≠ TypeId.uint8) ∨
        ∃ col ∈ makeResultBlock specs, nm = col.name ∧
          (rg (argumentsGet dn)).returnType.getTypeId ≠ col.type.getTypeId) := by
  have hlen2 : ¬ names.length ≠ specs.length := by simp [hlen]
  constructor
  · constructor
    · rintro ⟨hhas, hgets⟩
      obtain ⟨out2, hout2⟩ := (mkGets_ok_iff rg (argumentsGet dn) ks
        (keyPositionOf ks specs) (makeResultBlock specs) 0
        (initialSampleBlock dn names)).mpr hgets
      obtain ⟨ws, b3⟩ := out2
      refine ⟨{ result_header := makeResultBlock specs, sample_block := b3,
                key_position := keyPositionOf ks specs,
                function_has := { function := rh (argumentsHas dn),
                                  arg_positions := [0, keyPositionOf ks specs],
                                  result_pos := (initialSampleBlock dn names).length },
                functions_get := ws }, ?_⟩
      unfold DictionaryReader.construct
      rw [if_neg hlen2]
      rw [functionWrapper_construct_ok_eq rh (argumentsHas dn)
            (initialSampleBlock dn names) [0, keyPositionOf ks specs] "has"
            TypeId.uint8 hhas]
      simp only
      rw [hout2]
    · rintro ⟨r, hr⟩
      unfold DictionaryReader.construct at hr
      rw [if_neg hlen2] at hr
      cases heq : FunctionWrapper.construct rh (argumentsHas dn)
          (initialSampleBlock dn names) [0, keyPositionOf ks specs] "has"
          TypeId.uint8 with
      | error e1 =>
        simp only [heq] at hr
        exact Except.noConfusion hr
      | ok pr =>
        obtain ⟨w, b2⟩ := pr
        have hhas := functionWrapper_construct_ok_shape rh (argumentsHas dn)
          (initialSampleBlock dn names) [0, keyPositionOf ks specs] "has"
          TypeId.uint8 (w, b2) heq
        simp only [heq] at hr
        cases heq2 : mkGets rg (argumentsGet dn) ks (keyPositionOf ks specs)
            (makeResultBlock specs) 0 b2 with
        | error e2 =>
          simp only [heq2] at hr
          exact Except.noConfusion hr
        | ok out2 =>
          exact ⟨hhas, (mkGets_ok_iff rg (argumentsGet dn) ks
            (keyPositionOf ks specs) (makeResultBlock specs) 0 b2).mp
            ⟨out2, heq2⟩⟩
  · intro nm h
    unfold DictionaryReader.construct at h
    rw [if_neg hlen2] at h
    cases heq : FunctionWrapper.construct rh (argumentsHas dn)
        (initialSampleBlock dn names) [0, keyPositionOf ks specs] "has"
        TypeId.uint8 with
    | error e1 =>
      simp only [heq] at h
      injection h with h1
      obtain ⟨he, hne⟩ := functionWrapper_construct_error_shape rh (argumentsHas dn)
        (initialSampleBlock dn names) [0, keyPositionOf ks specs] "has"
        TypeId.uint8 e1 heq
      have h3 := h1.symm.trans he
      injection h3 with h4
      exact Or.inl ⟨h4, hne⟩
    | ok pr =>
      obtain ⟨w, b2⟩ := pr
      simp only [heq] at h
      cases heq2 : mkGets rg (argumentsGet dn) ks (keyPositionOf ks specs)
          (makeResultBlock specs) 0 b2 with
      | error e2 =>
        simp only [heq2] at h
        injection h with h2
        obtain ⟨c, hc, he, hne⟩ := mkGets_error_shape rg (argumentsGet dn) ks
          (keyPositionOf ks specs) (makeResultBlock specs) 0 b2 e2 heq2
        right
        refine ⟨c, hc, ?_, hne⟩
        have h3 := h2.symm.trans he
        injection h3
      | ok out2 =>
        obtain ⟨ws, b3⟩ := out2
        simp only [heq2] at h
        exact Except.noConfusion h

end ClickHouse

namespace ClickHouse

/-- Claim C8: readKeys never mutates the plan or the caller key column:
the call hands back the plan and the keys exactly as they were, and the
result depends on the caller keys only through the resized private copy
installed into the working block. -/
theorem claim8_no_mutation (r : DictionaryReader) (keys keys2 : Column) (size : Nat)
    (h : Column.cloneResized keys size = Column.cloneResized keys2 size) :
    (DictionaryReader.readKeysCall r keys size).2 = (r, keys) ∧
      DictionaryReader.readKeys r keys size
        = DictionaryReader.readKeys r keys2 size := by
  refine ⟨rfl, ?_⟩
  unfold DictionaryReader.readKeys
  rw [h]

/-- Witness for claim C8 at a concrete plan and two key columns whose
resized copies agree. -/
theorem claim8_no_mutation_witness :
    Column.cloneResized (Column.vecUInt64 [1, 2, 3, 9]) 3
        = Column.cloneResized (Column.vecUInt64 [1, 2, 3]) 3 ∧
    ((DictionaryReader.readKeysCall trivialReader (Column.vecUInt64 [1, 2, 3, 9]) 3).2
        = (trivialReader, Column.vecUInt64 [1, 2, 3, 9]) ∧
      DictionaryReader.readKeys trivialReader (Column.vecUInt64 [1, 2, 3, 9]) 3
        = DictionaryReader.readKeys trivialReader (Column.vecUInt64 [1, 2, 3]) 3) :=
  ⟨by decide,
   claim8_no_mutation trivialReader (Column.vecUInt64 [1, 2, 3, 9])
     (Column.vecUInt64 [1, 2, 3]) 3 (by decide)⟩

/-- Claim C9: for a fixed plan and the pure bound operations stored in it,
calling readKeys twice with the same key batch yields the same result both
times; the second call starts from the plan and keys left behind by the
first call. -/
theorem claim9_idempotent (r : DictionaryReader) (keys : Column) (size : Nat) :
    (DictionaryReader.readKeysCall
        (DictionaryReader.readKeysCall r keys size).2.1
        (DictionaryReader.readKeysCall r keys size).2.2 size).1 =
      (DictionaryReader.readKeysCall r keys size).1 := rfl

end ClickHouse

namespace ClickHouse

/-- Witness for claim C6 at the one attribute demo plan, whose column
counts match. -/
theorem claim6_type_check_witness :
    demoSrcNames1.length = demoSpecs1.length ∧
    ((((demoHasResolver (argumentsHas demoDictName)).returnType.getTypeId = TypeId.uint8 ∧
        ∀ col ∈ makeResultBlock demoSpecs1,
          (demoGetResolver (argumentsGet demoDictName)).returnType.getTypeId
            = col.type.getTypeId) ↔
      ∃ r, DictionaryReader.construct demoHasResolver demoGetResolver demoDictName
            demoSrcNames1 demoSpecs1 1 = .ok r) ∧
    (∀ nm, DictionaryReader.construct demoHasResolver demoGetResolver demoDictName
          demoSrcNames1 demoSpecs1 1 = .error (.typeMismatch nm) →
        (nm = "has" ∧
          (demoHasResolver (argumentsHas demoDictName)).returnType.getTypeId
            ≠ TypeId.uint8) ∨
        ∃ col ∈ makeResultBlock demoSpecs1, nm = col.name ∧
          (demoGetResolver (argumentsGet demoDictName)).returnType.getTypeId
            ≠ col.type.getTypeId)) :=
  ⟨rfl, claim6_type_check demoHasResolver demoGetResolver demoDictName
    demoSrcNames1 demoSpecs1 1 rfl⟩

/-- Claim C3 evaluation: for the two attribute demo plan, the bound has
operation and both bound get operations all record the same output
position 4, which is one past the last slot of the four column sample
block; the claim wants the has output at its own slot and the i th get
output at the i th following slot of a block that contains them. -/
theorem claim3_result_positions_collide :
    (DictionaryReader.construct demoHasResolver demoGetResolver demoDictName
        demoSrcNames2 demoSpecs2 1).map
      (fun r => (r.function_has.result_pos,
        r.functions_get.map (fun w => w.result_pos), r.sample_block.length))
    = Except.ok (4, [4, 4], 4) := rfl

/-- Claim C1 evaluation: on the one attribute demo plan readKeys fails
with a position out of bound error while the has operation writes its
output, before the position map scan is ever reached. -/
theorem claim1_position_map_not_built :
    (DictionaryReader.construct demoHasResolver demoGetResolver demoDictName
        demoSrcNames1 demoSpecs1 1).map
      (fun r => DictionaryReader.readKeys r (Column.vecUInt64 [10, 11, 12, 13, 14]) 5)
    = Except.ok (Except.error (RunErr.positionOutOfBound 3)) := rfl

/-- Claim C2 evaluation: on the one attribute demo plan readKeys produces
no output batch; it fails with a position out of bound error. -/
theorem claim2_output_batch_not_produced :
    (DictionaryReader.construct demoHasResolver demoGetResolver demoDictName
        demoSrcNames1 demoSpecs1 1).map
      (fun r => DictionaryReader.readKeys r (Column.vecUInt64 [10, 11, 12]) 3)
    = Except.ok (Except.error (RunErr.positionOutOfBound 3)) := rfl

/-- Claim C4 evaluation: on the two attribute demo plan readKeys returns
no found mask and no position map; it fails with a position out of bound
error. -/
theorem claim4_no_mask_returned :
    (DictionaryReader.construct demoHasResolver demoGetResolver demoDictName
        demoSrcNames2 demoSpecs2 1).map
      (fun r => DictionaryReader.readKeys r (Column.vecUInt64 [10, 11]) 2)
    = Except.ok (Except.error (RunErr.positionOutOfBound 4)) := rfl

/-- Claim C7 evaluation: even for the empty key batch readKeys fails with
a position out of bound error instead of succeeding with empty outputs. -/
theorem claim7_empty_batch_fails :
    (DictionaryReader.construct demoHasResolver demoGetResolver demoDictName
        demoSrcNames1 demoSpecs1 1).map
      (fun r => DictionaryReader.readKeys r (Column.vecUInt64 []) 0)
    = Except.ok (Except.error (RunErr.positionOutOfBound 3)) := rfl

/-- Claim C10 evaluation: on the one attribute demo plan the has result
position equals the sample block column count, so the slot the has result
should occupy does not exist; readKeys fails when the has operation writes
there, and the uint8 extraction step is never reached. -/
theorem claim10_has_extraction_unreachable :
    (DictionaryReader.construct demoHasResolver demoGetResolver demoDictName
        demoSrcNames1 demoSpecs1 1).map
      (fun r => (r.function_has.result_pos, r.sample_block.length,
        DictionaryReader.readKeys r (Column.vecUInt64 [7]) 1))
    = Except.ok (3, 3, Except.error (RunErr.positionOutOfBound 3)) := rfl

end ClickHouse

namespace ClickHouse

theorem countNonzero_cons (f : Nat) (t : List Nat) :
    countNonzero (f :: t) = (if f ≠ 0 then 1 else 0) + countNonzero t := by
  by_cases hf : f ≠ 0
  · simp [countNonzero, List.filter_cons, hf, Nat.add_comm]
  · simp [countNonzero, List.filter_cons, hf]

theorem buildPositionsFrom_length (l : List Nat) (p : Nat) :
    (buildPositionsFrom l p).length = l.length := by
  induction l generalizing p with
  | nil => rfl
  | cons f fs ih =>
    unfold buildPositionsFrom
    split <;> simp [ih]

theorem buildPositionsFrom_getD (l : List Nat) (p i : Nat) :
    (buildPositionsFrom l p).getD i 0 =
      if l.getD i 0 ≠ 0 then p + countNonzero (l.take i) else 0 := by
  induction l generalizing p i with
  | nil => simp [buildPositionsFrom]
  | cons f fs ih =>
    cases i with
    | zero =>
      unfold buildPositionsFrom
      split <;> simp_all [countNonzero]
    | succ i =>
      unfold buildPositionsFrom
      rw [List.take_succ_cons, countNonzero_cons]
      split
      · simp only [List.getD_cons_succ]
        rw [ih]
        split <;> omega
      · simp only [List.getD_cons_succ]
        rw [ih]
        split <;> omega

theorem buildPositions_scan_example :
    buildPositions [1, 0, 1, 0, 0] 5 = [0, 0, 1, 0, 0] := by decide

end ClickHouse
